import Mathlib

/-!
Verification of the krew installation pipeline (pkg/installation, pkg/download)
against its natural-language specification.

The Go source is shallowly embedded:
* Filesystem paths are embedded as a rooted flag plus a list of path segments
  (the string "a/./b" becomes `⟨false, ["a", ".", "b"]⟩`; "/x" becomes
  `⟨true, ["x"]⟩`).  `path/filepath` functions (`Clean`, `Join`, `Abs`, `Base`,
  `Dir`) are implemented over that representation, on POSIX separators
  (`filepath.FromSlash` is the identity there).
* The filesystem is a finite map: regular files (path and byte content),
  directories and symbolic links.  Each `os` primitive both transforms the
  filesystem and appends an access record to a trace, so that "no filesystem
  access happens before X" is a statement about the trace.
* Go's `(value, error)` returns become tuples with an `Option Err` component;
  `github.com/pkg/errors` wrapping is the `Err.wrap` constructor, and
  `errors.Wrapf(nil, ...)` returns `none`, as that library documents.
* Byte-level collaborators (HTTP, SHA-256, zip/gzip parsing) enter as
  parameters of the orchestration, universally quantified in every theorem,
  so nothing about them is assumed.
-/

namespace Krew

/-- A filesystem path: `isAbs` is true for rooted paths, `segs` is the list of
path segments (possibly containing `"."` / `".."` before cleaning).
`⟨false, []⟩` stands for both `"."` and the empty path, as `filepath.Clean`
maps both to `"."`. -/
structure GoPath where
  isAbs : Bool
  segs : List String
deriving DecidableEq

/-- One step of the `filepath.Clean` stack machine: the stack holds the
already-emitted segments in reverse order. -/
def cleanStep (isAbsolute : Bool) (st : List String) (seg : String) : List String :=
  if seg = "" ∨ seg = "." then st
  else if seg = ".." then
    match st with
    | [] => if isAbsolute then [] else [".."]
    | top :: rest => if top = ".." then ".." :: top :: rest else rest
  else seg :: st

/-- `filepath.Clean`: drop empty and `"."` segments, resolve `".."` against the
preceding segment, keep leading `".."` on relative paths, drop it on rooted
ones. -/
def goClean (p : GoPath) : GoPath :=
  ⟨p.isAbs, (p.segs.foldl (cleanStep p.isAbs) []).reverse⟩

/-- `filepath.Join(a, b)`: concatenate and clean.  Go joins the underlying
strings, so the rooted flag of the second argument is ignored. -/
def goJoin (a b : GoPath) : GoPath :=
  goClean ⟨a.isAbs, a.segs ++ b.segs⟩

/-- `filepath.Abs`: an already-rooted path is only cleaned, a relative one is
joined onto the working directory (which never fails in this model, matching
`os.Getwd` succeeding). -/
def goAbs (cwd p : GoPath) : GoPath :=
  if p.isAbs then goClean p else goJoin cwd p

/-- `filepath.Base` of an already-clean path: its last segment, or `"/"` / `"."`
for the empty rooted / relative path. -/
def goBase (p : GoPath) : String :=
  match p.segs.getLast? with
  | some s => s
  | none => if p.isAbs then "/" else "."

/-- `filepath.Dir` of an already-clean path: everything but the last segment. -/
def goDir (p : GoPath) : GoPath :=
  ⟨p.isAbs, p.segs.dropLast⟩

/-- All directory ancestors of a path, the path itself included (used by the
`os.MkdirAll` model). -/
def ancestors (p : GoPath) : List GoPath :=
  (List.range (p.segs.length + 1)).map (fun n => ⟨p.isAbs, p.segs.take n⟩)

/-- Modelled from the spec: `pkg/pathutil.IsSubPath` is part of this repository
but absent from the sources provided.  Per §4.6 and the glossary, a sandbox
root is "a directory boundary ... that all derived paths must resolve inside
of, enforced by sub-path containment checks", and per §6 the version is "the
second path component (relative to the install root)" of the link target, so
the check returns the relative path elements on success.  Both paths are
cleaned; containment requires agreeing rootedness and the base's segments
being an initial run of the other path's segments. -/
def IsSubPath (base p : GoPath) : Option (List String) :=
  let b := goClean base
  let q := goClean p
  if b.isAbs = q.isAbs ∧ b.segs.isPrefixOf q.segs then
    some (q.segs.drop b.segs.length)
  else none

/-- Errors raised by the `os` filesystem primitives.  `notExist` is the class
recognised by `os.IsNotExist`; `invalidArg` covers e.g. `Readlink` on a
non-symlink. -/
inductive FsErr where
  | notExist (p : GoPath)
  | invalidArg (p : GoPath)
  | exist (p : GoPath)
  | notDir (p : GoPath)
deriving DecidableEq

/-- A filesystem: regular files with byte contents, directories, and symbolic
links with their stored target.  Wellformedness (disjointness of the three
kinds, presence of parents) is not enforced by the type; concrete states used
in theorems are wellformed. -/
structure FS where
  files : List (GoPath × List Nat)
  dirs : List GoPath
  links : List (GoPath × GoPath)
deriving DecidableEq

def FS.isFile (fs : FS) (p : GoPath) : Bool :=
  fs.files.any (fun e => e.1 == p)

def FS.isDir (fs : FS) (p : GoPath) : Bool :=
  fs.dirs.any (fun d => d == p)

def FS.isLink (fs : FS) (p : GoPath) : Bool :=
  fs.links.any (fun e => e.1 == p)

def FS.existsPath (fs : FS) (p : GoPath) : Bool :=
  fs.isFile p || fs.isDir p || fs.isLink p

def FS.fileContent (fs : FS) (p : GoPath) : Option (List Nat) :=
  fs.files.lookup p

/-- The record of one filesystem access, in the order performed. -/
inductive Access where
  | readlink (p : GoPath)
  | stat (p : GoPath)
  | lstat (p : GoPath)
  | glob (pat : GoPath)
  | mkdirAll (p : GoPath)
  | rename (src dst : GoPath)
  | removeAll (p : GoPath)
  | remove (p : GoPath)
  | openRead (p : GoPath)
  | openWrite (p : GoPath)
  | symlink (src dst : GoPath)
  | tempDir (p : GoPath)
deriving DecidableEq

/-- The state threaded through every embedded function: the filesystem plus
the chronological trace of filesystem accesses. -/
structure St where
  fs : FS
  tr : List Access
deriving DecidableEq

def St.log (st : St) (a : Access) : St :=
  ⟨st.fs, st.tr ++ [a]⟩

/-- `os.Readlink`: the stored target of a symlink; `notExist` when nothing is
at the path, `invalidArg` when a file or directory (not a symlink) is there. -/
def osReadlink (p : GoPath) (st : St) : Except FsErr GoPath × St :=
  let st := st.log (.readlink p)
  match st.fs.links.lookup p with
  | some t => (.ok t, st)
  | none =>
    if st.fs.isFile p || st.fs.isDir p then (.error (.invalidArg p), st)
    else (.error (.notExist p), st)

/-- `os.Stat` reduced to what the embedded code consumes: does anything exist
at the path (symlink targets are not chased; no dangling links occur in the
states the theorems use). -/
def osStat (p : GoPath) (st : St) : Bool × St :=
  (st.fs.existsPath p, st.log (.stat p))

/-- The three `os.FileInfo` shapes `Lstat` distinguishes here. -/
inductive FileKind where
  | file
  | dir
  | symlink
deriving DecidableEq

/-- `os.Lstat`: the kind of entry at the path, without following symlinks. -/
def osLstat (p : GoPath) (st : St) : Except FsErr FileKind × St :=
  let st := st.log (.lstat p)
  if st.fs.isLink p then (.ok .symlink, st)
  else if st.fs.isFile p then (.ok .file, st)
  else if st.fs.isDir p then (.ok .dir, st)
  else (.error (.notExist p), st)

/-- `os.MkdirAll`: creates the directory and all missing ancestors; fails when
some ancestor (or the path itself) is a regular file. Creating an existing
directory succeeds. -/
def osMkdirAll (p : GoPath) (st : St) : Option FsErr × St :=
  let st := st.log (.mkdirAll p)
  if (ancestors p).any (fun q => st.fs.isFile q) then (some (.notDir p), st)
  else
    (none, ⟨⟨st.fs.files,
             st.fs.dirs ++ (ancestors p).filter (fun q => !(st.fs.isDir q)),
             st.fs.links⟩, st.tr⟩)

/-- Move a path under `src` to the same position under `dst` (the subtree
relocation `os.Rename` performs). -/
def rebase (src dst p : GoPath) : GoPath :=
  if src.isAbs = p.isAbs ∧ src.segs.isPrefixOf p.segs then
    ⟨dst.isAbs, dst.segs ++ p.segs.drop src.segs.length⟩
  else p

/-- `os.Rename`: fails with `notExist` when the source is absent; otherwise
any entry exactly at the destination is replaced and the whole source subtree
is rebased onto the destination.  The model has a single storage device, so
the cross-device failure of the real call cannot arise. -/
def osRename (src dst : GoPath) (st : St) : Option FsErr × St :=
  let st := st.log (.rename src dst)
  if !(st.fs.existsPath src) then (some (.notExist src), st)
  else
    let fs := st.fs
    (none, ⟨⟨(fs.files.filter (fun e => !(e.1 == dst))).map
               (fun e => (rebase src dst e.1, e.2)),
             (fs.dirs.filter (fun d => !(d == dst))).map (rebase src dst),
             (fs.links.filter (fun e => !(e.1 == dst))).map
               (fun e => (rebase src dst e.1, e.2))⟩, st.tr⟩)

/-- Does `q` lie inside the subtree rooted at `p` (itself included)? -/
def inSubtree (p q : GoPath) : Bool :=
  p.isAbs == q.isAbs && p.segs.isPrefixOf q.segs

/-- `os.RemoveAll`: deletes the whole subtree; never fails (absence is
success). -/
def osRemoveAll (p : GoPath) (st : St) : St :=
  let st := st.log (.removeAll p)
  ⟨⟨st.fs.files.filter (fun e => !(inSubtree p e.1)),
    st.fs.dirs.filter (fun d => !(inSubtree p d)),
    st.fs.links.filter (fun e => !(inSubtree p e.1))⟩, st.tr⟩

/-- `os.Remove`: deletes a file, symlink or empty directory at the path;
fails otherwise. -/
def osRemove (p : GoPath) (st : St) : Option FsErr × St :=
  let st := st.log (.remove p)
  let fs := st.fs
  if fs.isFile p then
    (none, ⟨⟨fs.files.filter (fun e => !(e.1 == p)), fs.dirs, fs.links⟩, st.tr⟩)
  else if fs.isLink p then
    (none, ⟨⟨fs.files, fs.dirs, fs.links.filter (fun e => !(e.1 == p))⟩, st.tr⟩)
  else if fs.isDir p then
    if fs.files.any (fun e => inSubtree p e.1 && !(e.1 == p)) ||
       fs.dirs.any (fun d => inSubtree p d && !(d == p)) ||
       fs.links.any (fun e => inSubtree p e.1 && !(e.1 == p)) then
      (some (.invalidArg p), st)
    else (none, ⟨⟨fs.files, fs.dirs.filter (fun d => !(d == p)), fs.links⟩, st.tr⟩)
  else (some (.notExist p), st)

/-- `os.Symlink`: fails when something already is at the link path. -/
def osSymlink (src dst : GoPath) (st : St) : Option FsErr × St :=
  let st := st.log (.symlink src dst)
  if st.fs.existsPath dst then (some (.exist dst), st)
  else (none, ⟨⟨st.fs.files, st.fs.dirs, st.fs.links ++ [(dst, src)]⟩, st.tr⟩)

/-- `os.Open` followed by reading the whole content (the local-file fetcher). -/
def osOpenRead (p : GoPath) (st : St) : Except FsErr (List Nat) × St :=
  let st := st.log (.openRead p)
  match st.fs.fileContent p with
  | some c => (.ok c, st)
  | none => (.error (.notExist p), st)

/-- `os.OpenFile(path, O_CREATE|O_WRONLY|O_TRUNC, mode)` followed by
`io.Copy`: the file holds exactly the new content afterwards.  Fails when the
path is a directory or its parent directory is missing. -/
def fsOpenWriteTrunc (p : GoPath) (content : List Nat) (st : St) :
    Option FsErr × St :=
  let st := st.log (.openWrite p)
  if st.fs.isDir p then (some (.invalidArg p), st)
  else if !(st.fs.isDir (goDir p)) then (some (.notExist p), st)
  else
    (none, ⟨⟨st.fs.files.filter (fun e => !(e.1 == p)) ++ [(p, content)],
             st.fs.dirs, st.fs.links⟩, st.tr⟩)

/-- `os.OpenFile(path, O_CREATE|O_WRONLY, mode)` followed by `io.Copy`:
without `O_TRUNC` the new bytes overwrite the old from offset zero, and any
old tail beyond the new length survives. -/
def fsOpenWriteKeep (p : GoPath) (content : List Nat) (st : St) :
    Option FsErr × St :=
  let st := st.log (.openWrite p)
  if st.fs.isDir p then (some (.invalidArg p), st)
  else if !(st.fs.isDir (goDir p)) then (some (.notExist p), st)
  else
    let merged := match st.fs.fileContent p with
      | some old => content ++ old.drop content.length
      | none => content
    (none, ⟨⟨st.fs.files.filter (fun e => !(e.1 == p)) ++ [(p, merged)],
             st.fs.dirs, st.fs.links⟩, st.tr⟩)

/-- `ioutil.TempDir`: the fresh directory's name is supplied by the
environment; creating it is the only effect. -/
def osTempDir (p : GoPath) (st : St) : St :=
  let st := st.log (.tempDir p)
  ⟨⟨st.fs.files, st.fs.dirs ++ [p], st.fs.links⟩, st.tr⟩

/-- `filepath.Glob` (no error case: the pattern subset below is never
malformed): every existing path matching the pattern.  Pattern segments
support literal characters, `?` and `*` of `filepath.Match` (`*` never
crosses a separator because matching is per segment); character classes are
not used by any manifest the claims mention. -/
def listSuffixes : List Char → List (List Char)
  | [] => [[]]
  | c :: cs => (c :: cs) :: listSuffixes cs

def matchSeg : List Char → List Char → Bool
  | [], s => s.isEmpty
  | '*' :: ps, s => (listSuffixes s).any (fun t => matchSeg ps t)
  | _ :: _, [] => false
  | p :: ps, c :: cs => (p = '?' || p = c) && matchSeg ps cs

def globMatch (pat p : GoPath) : Bool :=
  pat.isAbs == p.isAbs && pat.segs.length == p.segs.length &&
  (pat.segs.zip p.segs).all (fun z => matchSeg z.1.toList z.2.toList)

def globList (fs : FS) (pat : GoPath) : List GoPath :=
  (fs.files.map (fun e => e.1) ++ fs.dirs ++ fs.links.map (fun e => e.1)).filter
    (globMatch pat)

def globFS (pat : GoPath) (st : St) : List GoPath × St :=
  (globList st.fs pat, st.log (.glob pat))

/-- A resolved move, Go's `move{from, to}` in `pkg/installation/move.go`
(field names capitalised because `from` is reserved in Lean). -/
structure Move where
  From : GoPath
  To : GoPath
deriving DecidableEq

/-- The operators of `metav1.LabelSelectorRequirement`. -/
inductive SelOp where
  | opIn
  | opNotIn
  | opExists
  | opDoesNotExist
deriving DecidableEq

/-- One requirement of a label selector (also the compiled form used by
`labels.Selector`). -/
structure SelReq where
  key : String
  op : SelOp
  values : List String
deriving DecidableEq

/-- `metav1.LabelSelector`: equality constraints plus expression
constraints. -/
structure LabelSelector where
  matchLabels : List (String × String)
  matchExpressions : List SelReq
deriving DecidableEq

/-- Modelled from the spec: the `pkg/index` manifest types are part of this
repository but absent from the sources provided.  §3 and §6 give the shape: a
FileOperation is "a glob pattern relative to the extraction root (`from`) and
a target relative path (`to`) within the staging root". -/
structure FileOperation where
  From : GoPath
  To : GoPath
deriving DecidableEq

/-- Modelled from the spec (§3, §6): a platform descriptor carries a label
selector (a nullable pointer in Go, hence `Option`), the mutable-channel URI
`head`, the immutable `uri` and its `sha256`, the executable's relative path
`bin`, and the file operations. -/
structure Platform where
  Head : String
  URI : String
  Sha256 : String
  Selector : Option LabelSelector
  Bin : GoPath
  Files : List FileOperation
deriving DecidableEq

/-- The zero value `index.Platform{}`. -/
def emptyPlatform : Platform := ⟨"", "", "", none, ⟨false, []⟩, []⟩

/-- Modelled from the spec (§3): a plugin manifest is a name plus the platform
descriptor list (Go nests the list under `Spec`). -/
structure Plugin where
  Name : String
  Platforms : List Platform
deriving DecidableEq

/-- Errors of the embedded pipeline.  `wrap` is `errors.Wrap`/`Wrapf` on a
non-nil argument, `msg` is `errors.New`/`Errorf`, the remaining constructors
are the individual `errors.Errorf` sites with their format arguments, and
`alreadyInstalled`/`notInstalled` are the sentinel values of `install.go`. -/
inductive Err where
  | msg (s : String)
  | wrap (s : String) (e : Err)
  | fsErr (e : FsErr)
  | alreadyInstalled
  | notInstalled
  | unsafeName (n : String)
  | notClean (got want : GoPath)
  | globNoMatch (pat : GoPath)
  | moveNotAllowed (m : Move)
  | versionParse (installPath pluginPath : GoPath)
  | noHead
  | badSelector
  | unsupportedType (flag : Nat) (name : GoPath)
  | cannotInferArchive (url : String)
  | checksumMismatch (want got : List Nat)
  | notSymlink (p : GoPath)
  | execNotFound (p : GoPath)
deriving DecidableEq

/-- `errors.Wrapf(err, ...)`: returns nil when `err` is nil, as the
`github.com/pkg/errors` library documents. -/
def wrapf (e : Option Err) (s : String) : Option Err :=
  match e with
  | none => none
  | some e => some (.wrap s e)

/-- `isMoveAllowed` (move.go): both endpoints of the move must be sub-paths of
their respective bases. -/
def isMoveAllowed (fromBase toBase : GoPath) (m : Move) : Bool :=
  (IsSubPath fromBase m.From).isSome && (IsSubPath toBase m.To).isSome

/-- The zero value `move{}`. -/
def emptyMove : Move := ⟨⟨false, []⟩, ⟨false, []⟩⟩

/-- The path `"."`, i.e. `filepath.Clean` of an empty `to`. -/
def dotPath : GoPath := ⟨false, []⟩

/-- `getDirectMove` (move.go): if `fromDir/From` exists literally, build the
single move to `toDir/To` (or to the source's base name when `To` cleans to
`"."`), and reject it when either endpoint escapes its root. -/
def getDirectMove (cwd fromDir toDir : GoPath) (fo : FileOperation) (st : St) :
    (Move × Bool × Option Err) × St :=
  let fromDir := goAbs cwd fromDir
  let toDir := goAbs cwd toDir
  let fromFilePath := goClean (goJoin fromDir fo.From)
  let (ex, st) := osStat fromFilePath st
  if !ex then ((emptyMove, false, none), st)
  else
    let foTo := if goClean fo.To = dotPath then ⟨false, [goBase fromFilePath]⟩ else fo.To
    let toFilePath := goAbs cwd (goJoin toDir foTo)
    let m : Move := ⟨fromFilePath, toFilePath⟩
    if !(isMoveAllowed fromDir toDir m) then
      ((emptyMove, false, some (.moveNotAllowed m)), st)
    else ((m, true, none), st)

/-- The glob loop of `findMoveTargets`: each match `v` becomes a move to
`newDir/Base(v)`; the first disallowed candidate aborts with an error. -/
def collectMoves (fromDir toDir newDir : GoPath) : List GoPath → List Move × Option Err
  | [] => ([], none)
  | v :: vs =>
    let newPath := goJoin newDir ⟨false, [goBase v]⟩
    let m : Move := ⟨v, newPath⟩
    if !(isMoveAllowed fromDir toDir m) then ([], some (.moveNotAllowed m))
    else
      match collectMoves fromDir toDir newDir vs with
      | (ms, none) => (m :: ms, none)
      | (_, some e) => ([], some e)

/-- `findMoveTargets` (move.go): reject an unclean `To` up front; try the
direct move; otherwise glob `fromDir/From` and map every match, failing when
the glob matches nothing. -/
def findMoveTargets (cwd fromDir toDir : GoPath) (fo : FileOperation) (st : St) :
    (List Move × Option Err) × St :=
  if fo.To ≠ goClean fo.To then
    (([], some (.notClean fo.To (goClean fo.To))), st)
  else
    let fromDir := goAbs cwd fromDir
    let ((m, ok, derr), st) := getDirectMove cwd fromDir toDir fo st
    match derr with
    | some e => (([], some (.wrap "failed to detect single move operation" e)), st)
    | none =>
      if ok then (([m], none), st)
      else
        let newDir := goAbs cwd (goJoin toDir fo.To)
        let (gl, st) := globFS (goJoin fromDir fo.From) st
        if gl = [] then (([], some (.globNoMatch fo.From)), st)
        else (collectMoves fromDir toDir newDir gl, st)

/-- The execution loop of `moveFiles`: create each destination's parent
directory, then rename. -/
def execMoves : List Move → St → Option Err × St
  | [], st => (none, st)
  | m :: ms, st =>
    let (e1, st) := osMkdirAll (goDir m.To) st
    match e1 with
    | some e => (some (.wrap "failed to create move path" (.fsErr e)), st)
    | none =>
      let (e2, st) := osRename m.From m.To st
      match e2 with
      | some e => (some (.wrap "could not rename file" (.fsErr e)), st)
      | none => execMoves ms st

/-- `moveFiles` (move.go): find the move targets, then execute them. -/
def moveFiles (cwd fromDir toDir : GoPath) (fo : FileOperation) (st : St) :
    Option Err × St :=
  let ((moves, err), st) := findMoveTargets cwd fromDir toDir fo st
  match err with
  | some e => (some (.wrap "could not find move targets" e), st)
  | none => execMoves moves st

/-- `moveAllFiles` (move.go): run `moveFiles` for every operation in order,
stopping at the first failure. -/
def moveAllFiles (cwd fromDir toDir : GoPath) : List FileOperation → St → Option Err × St
  | [], st => (none, st)
  | fo :: fos, st =>
    let (e, st) := moveFiles cwd fromDir toDir fo st
    match e with
    | some e => (some (.wrap "failed moving files" e), st)
    | none => moveAllFiles cwd fromDir toDir fos st

/-- `moveOrCopyDir` (move.go): stat the target, recursively delete it when it
is a directory, then rename.  The model has a single storage device, so the
cross-device fallback (`copyDir`) is unreachable and the `os.Rename` result is
returned directly, as in the source. -/
def moveOrCopyDir (src dst : GoPath) (st : St) : Option Err × St :=
  let (ex, st) := osStat dst st
  let st := if ex && st.fs.isDir dst then osRemoveAll dst st else st
  let (e, st) := osRename src dst st
  ((e.map .fsErr), st)

/-- A zip central-directory entry, already parsed: name (slash-split), whether
`FileInfo().IsDir()`, stored mode bits, and the decompressed content. -/
structure ZipEntry where
  name : GoPath
  isDir : Bool
  mode : Nat
  content : List Nat
deriving DecidableEq

/-- A tar header plus its content, already parsed.  `typeflag` keeps the raw
byte: `tar.TypeDir = 53`, `tar.TypeReg = 48`. -/
structure TarEntry where
  name : GoPath
  typeflag : Nat
  mode : Nat
  content : List Nat
deriving DecidableEq

def tarTypeReg : Nat := 48

def tarTypeDir : Nat := 53

/-- The per-entry body of `extractZIP` (unarchive.go): directories are created
with `os.MkdirAll` whose error the source ignores; regular files are opened
with `O_CREATE|O_WRONLY|O_TRUNC` and the content copied in. -/
def zipStep (targetDir : GoPath) (f : ZipEntry) (st : St) : Option Err × St :=
  let path := goJoin targetDir f.name
  if f.isDir then
    let (_, st) := osMkdirAll path st
    (none, st)
  else
    let (we, st) := fsOpenWriteTrunc path f.content st
    match we with
    | some e => (some (.wrap "can't create file in zip destination dir" (.fsErr e)), st)
    | none => (none, st)

/-- `extractZIP` (unarchive.go) over the parsed entries: process in order,
returning at the first failing entry with earlier effects kept. -/
def extractZIP (targetDir : GoPath) : List ZipEntry → St → Option Err × St
  | [], st => (none, st)
  | f :: fs, st =>
    let (e, st) := zipStep targetDir f st
    match e with
    | some e => (some e, st)
    | none => extractZIP targetDir fs st

/-- The per-entry body of `extractTARGZ` (unarchive.go): a literal
`pax_global_header` entry is skipped before anything is done with it;
directories are created (the error checked this time); regular files are
opened with `O_CREATE|O_WRONLY` — no `O_TRUNC` — and the content copied in;
any other type flag fails with the unsupported-type error. -/
def tarStep (targetDir : GoPath) (hdr : TarEntry) (st : St) : Option Err × St :=
  if hdr.name = ⟨false, ["pax_global_header"]⟩ then (none, st)
  else
    let path := goJoin targetDir hdr.name
    if hdr.typeflag = tarTypeDir then
      let (e, st) := osMkdirAll path st
      match e with
      | some e => (some (.wrap "failed to create directory from tar" (.fsErr e)), st)
      | none => (none, st)
    else if hdr.typeflag = tarTypeReg then
      let (we, st) := fsOpenWriteKeep path hdr.content st
      match we with
      | some e => (some (.wrap "failed to create file" (.fsErr e)), st)
      | none => (none, st)
    else (some (.unsupportedType hdr.typeflag hdr.name), st)

/-- `extractTARGZ` (unarchive.go) over the parsed entries: process in order,
returning at the first failing entry with earlier effects kept on disk. -/
def extractTARGZ (targetDir : GoPath) : List TarEntry → St → Option Err × St
  | [], st => (none, st)
  | hdr :: rest, st =>
    let (e, st) := tarStep targetDir hdr st
    match e with
    | some e => (some e, st)
    | none => extractTARGZ targetDir rest st

/-- One hex digit's value, or `none` (`encoding/hex`). -/
def hexVal (c : Char) : Option Nat :=
  if '0' ≤ c ∧ c ≤ '9' then some (c.toNat - '0'.toNat)
  else if 'a' ≤ c ∧ c ≤ 'f' then some (c.toNat - 'a'.toNat + 10)
  else if 'A' ≤ c ∧ c ≤ 'F' then some (c.toNat - 'A'.toNat + 10)
  else none

/-- `hex.DecodeString` as `NewSHA256Verifier` uses it: the bytes decoded
before the first error, the error itself discarded (a malformed expectation
degrades to an impossible-to-match checksum). -/
def hexDecodeList : List Char → List Nat
  | c1 :: c2 :: rest =>
    match hexVal c1, hexVal c2 with
    | some a, some b => (16 * a + b) :: hexDecodeList rest
    | _, _ => []
  | _ => []

def hexDecode (s : String) : List Nat := hexDecodeList s.toList

/-- A `download.Verifier` after construction: the no-op variant, or the
SHA-256 variant holding the decoded expected digest. -/
inductive Verifier where
  | trueVerifier
  | sha256Verifier (wantedHash : List Nat)
deriving DecidableEq

/-- `Verify()` applied to the accumulated bytes, the hash function itself
supplied by the environment. -/
def Verifier.verify (sha2 : List Nat → List Nat) (v : Verifier) (data : List Nat) :
    Option Err :=
  match v with
  | .trueVerifier => none
  | .sha256Verifier want =>
    if want = sha2 data then none else some (.checksumMismatch want (sha2 data))

/-- `strings.ToLower` restricted to ASCII, which covers checksum strings. -/
def goToLower (s : String) : String := ⟨s.data.map Char.toLower⟩

/-- `strings.Replace(name, "-", "_", -1)`: character-wise since the pattern is
a single character. -/
def replaceDash (s : String) : String :=
  ⟨s.data.map (fun c => if c = '-' then '_' else c)⟩

/-- `strings.HasSuffix`. -/
def goHasSuffix (s t : String) : Bool := t.data.isSuffixOf s.data

def headVersion : String := "HEAD"

def krewPluginName : String := "krew"

/-- Modelled from the spec: `index.IsSafePluginName` is part of this
repository but absent from the sources provided.  §3: the name "must pass a
strict safety check: no path separators, no parent-directory segments, no
leading dot" — with separators banned a parent-directory segment can only be
the whole name `".."`, which the leading-dot rule already rejects. -/
def IsSafePluginName (name : String) : Bool :=
  !(name.data.contains '/') && !(name.data.contains '\\') &&
  !(name.data.head? == some '.')

/-- `choosePluginVersion` (util.go): the forced or sole mutable channel wins;
forcing without a head fails; otherwise the lowercased checksum names the
immutable version. -/
def choosePluginVersion (p : Platform) (forceHEAD : Bool) :
    String × String × Option Err :=
  if (forceHEAD ∧ p.Head ≠ "") ∨ (p.Head ≠ "" ∧ p.Sha256 = "" ∧ p.URI = "") then
    (headVersion, p.Head, none)
  else if forceHEAD ∧ p.Head = "" then
    ("", "", some .noHead)
  else (goToLower p.Sha256, p.URI, none)

/-- The compiled form `labels.Selector`: either `labels.Nothing()` (a nil
selector pointer) or a conjunction of requirements. -/
inductive Selector where
  | nothingMatches
  | requirements (rs : List SelReq)
deriving DecidableEq

/-- `labels.Requirement.Matches` of `k8s.io/apimachinery`: `In` needs the key
present with a listed value, `NotIn` also accepts a missing key, `Exists` /
`DoesNotExist` test presence only. -/
def reqMatches (ls : List (String × String)) (r : SelReq) : Bool :=
  match r.op with
  | .opIn =>
    match ls.lookup r.key with
    | some v => r.values.contains v
    | none => false
  | .opNotIn =>
    match ls.lookup r.key with
    | some v => !(r.values.contains v)
    | none => true
  | .opExists => (ls.lookup r.key).isSome
  | .opDoesNotExist => (ls.lookup r.key).isNone

def Selector.matches (s : Selector) (ls : List (String × String)) : Bool :=
  match s with
  | .nothingMatches => false
  | .requirements rs => rs.all (reqMatches ls)

/-- The arity validation `NewRequirement` performs on a match expression:
`In`/`NotIn` need at least one value, `Exists`/`DoesNotExist` need none.
(Label key/value syntax checks are omitted; no claim exercises them.) -/
def reqFromExpr (e : SelReq) : Except Err SelReq :=
  match e.op with
  | .opIn | .opNotIn => if e.values = [] then .error .badSelector else .ok e
  | .opExists | .opDoesNotExist => if e.values ≠ [] then .error .badSelector else .ok e

/-- `metav1.LabelSelectorAsSelector`: a nil pointer compiles to
`labels.Nothing()`; otherwise every `matchLabels` pair becomes an `In`
requirement with the single value and every expression is validated. -/
def LabelSelectorAsSelector : Option LabelSelector → Except Err Selector
  | none => .ok .nothingMatches
  | some ps => do
    let rs ← ps.matchExpressions.mapM reqFromExpr
    .ok (.requirements (ps.matchLabels.map (fun kv => ⟨kv.1, .opIn, [kv.2]⟩) ++ rs))

/-- The attribute set `{os, arch}` built by `matchPlatformToSystemEnvs`. -/
def envLabels (osName arch : String) : List (String × String) :=
  [("os", osName), ("arch", arch)]

/-- `matchPlatformToSystemEnvs` (util.go): first descriptor in list order
whose compiled selector matches; compilation failure aborts; no match yields
`(Platform{}, false, nil)`. -/
def matchPlatformToSystemEnvs : List Platform → String → String →
    Platform × Bool × Option Err
  | [], _, _ => (emptyPlatform, false, none)
  | q :: rest, osName, arch =>
    match LabelSelectorAsSelector q.Selector with
    | .error e => (emptyPlatform, false, some (.wrap "failed to compile label selector" e))
    | .ok sel =>
      if sel.matches (envLabels osName arch) then (q, true, none)
      else matchPlatformToSystemEnvs rest osName arch

/-- Whether a single descriptor would be selected (its selector compiles and
matches); used to state the first-match property. -/
def platformMatches (osName arch : String) (q : Platform) : Bool :=
  match LabelSelectorAsSelector q.Selector with
  | .ok sel => sel.matches (envLabels osName arch)
  | .error _ => false

/-- Modelled from the spec: `environment.Paths` is part of this repository but
absent from the sources provided.  §6 fixes the layout: an install root with
one subdirectory per plugin name, each with one subdirectory per version; a
binary-link directory; a download/cache directory — all supplied as
already-resolved absolute paths. -/
structure Paths where
  installPath : GoPath
  binPath : GoPath
  downloadPath : GoPath
deriving DecidableEq

def Paths.PluginInstallPath (p : Paths) (name : String) : GoPath :=
  goJoin p.installPath ⟨false, [name]⟩

def Paths.PluginVersionInstallPath (p : Paths) (name version : String) : GoPath :=
  goJoin p.installPath ⟨false, [name, version]⟩

/-- The ambient collaborators of one `Install`/`Remove` invocation, all pure:
runtime OS/architecture and the two override variables, the working
directory, the network, the hash, the byte-level archive parsers, the
temporary-directory name, and the string-to-path conversion for the local
download override.  Every theorem quantifies over this record, so nothing
about these collaborators is assumed. -/
structure Collab where
  goos : String
  goarch : String
  krewOS : String
  krewArch : String
  cwd : GoPath
  http : String → Except Err (List Nat)
  sha2 : List Nat → List Nat
  parseZip : List Nat → List ZipEntry × Option Err
  parseTar : List Nat → List TarEntry × Option Err
  stagingDir : GoPath
  parsePath : String → GoPath

/-- `osArch` (util.go): runtime values, overridden by `KREW_OS` /
`KREW_ARCH`. -/
def osArch (c : Collab) : String × String :=
  (if c.krewOS ≠ "" then c.krewOS else c.goos,
   if c.krewArch ≠ "" then c.krewArch else c.goarch)

/-- `isWindows` (install.go): the effective OS is `"windows"`. -/
def isWindows (c : Collab) : Bool :=
  (if c.krewOS ≠ "" then c.krewOS else c.goos) = "windows"

/-- `pluginNameToBin` (install.go): dashes to underscores, `kubectl-` prefixed,
`.exe` appended on Windows. -/
def pluginNameToBin (name : String) (isWin : Bool) : String :=
  let n := "kubectl-" ++ replaceDash name
  if isWin then n ++ ".exe" else n

/-- `pluginVersionFromPath` (util.go): the installed version is the second
path element of the link target relative to the install root. -/
def pluginVersionFromPath (installPath pluginPath : GoPath) : String × Option Err :=
  match IsSubPath installPath pluginPath with
  | some (_ :: v :: _) => (v, none)
  | _ => ("", some (.versionParse installPath pluginPath))

/-- `findInstalledPluginVersion` (util.go): reject unsafe names before any
filesystem access; read the plugin's symlink (absence means "not installed");
make a relative target absolute against the bin directory; parse the version
out of the target path. -/
def findInstalledPluginVersion (c : Collab) (installPath binDir : GoPath)
    (pluginName : String) (st : St) : (String × Bool × Option Err) × St :=
  if !(IsSafePluginName pluginName) then
    (("", false, some (.unsafeName pluginName)), st)
  else
    let (res, st) := osReadlink
      (goJoin binDir ⟨false, [pluginNameToBin pluginName (isWindows c)]⟩) st
    match res with
    | .error (.notExist _) => (("", false, none), st)
    | .error e => (("", false, some (.wrap "could not read plugin link" (.fsErr e))), st)
    | .ok link =>
      let link := if !link.isAbs then goAbs c.cwd (goJoin binDir link) else link
      let (name, perr) := pluginVersionFromPath installPath link
      match perr with
      | some e => (("", true, some (.wrap "cloud not parse plugin version" e)), st)
      | none => ((name, true, none), st)

/-- `evaluateBinPath` (install.go), faithfully including its slip: both
absolute forms are computed but unused, and the failure branch wraps the
`err` variable — which is nil at that point, and `errors.Wrapf(nil, ...)`
returns nil — so the function can never return a non-nil error. -/
def evaluateBinPath (cwd installDir executablePath : GoPath) : Option Err :=
  let _installDirAbs := goAbs cwd installDir
  let _executablePathAbs := goAbs cwd executablePath
  if (IsSubPath installDir executablePath).isNone then
    wrapf none "executable path is not within installation directory"
  else none

/-- `removeLink` (install.go): absence is success; a non-symlink entry is an
error; otherwise delete the link. -/
def removeLink (path : GoPath) (st : St) : Option Err × St :=
  let (fi, st) := osLstat path st
  match fi with
  | .error (.notExist _) => (none, st)
  | .error e => (some (.wrap "failed to read the symlink" (.fsErr e)), st)
  | .ok k =>
    if k ≠ .symlink then (some (.notSymlink path), st)
    else
      let (re, st) := osRemove path st
      match re with
      | some e => (some (.wrap "failed to remove the symlink" (.fsErr e)), st)
      | none => (none, st)

/-- `createOrUpdateLink` (install.go): remove any old link, require the
target executable to exist, then create the symlink. -/
def createOrUpdateLink (src dst : GoPath) (st : St) : Option Err × St :=
  let (re, st) := removeLink dst st
  match re with
  | some e => (some (.wrap "failed to remove old symlink" e), st)
  | none =>
    let (ex, st) := osStat src st
    if !ex then
      (some (.wrap "executable to be symlinked cannot be found" (.fsErr (.notExist src))), st)
    else
      let (se, st) := osSymlink src dst st
      match se with
      | some e => (some (.wrap "failed to create a symlink" (.fsErr e)), st)
      | none => (none, st)

/-- `initVerifier` (install.go). -/
def initVerifier (isHEAD : Bool) (checksum : String) : Verifier :=
  if isHEAD then .trueVerifier else .sha256Verifier (hexDecode checksum)

/-- The two `download.Unarchiver` variants. -/
inductive Unarchiver where
  | zipU
  | targzU
deriving DecidableEq

/-- `initUnarchiver` (install.go): archive type inferred from the URL
suffix. -/
def initUnarchiver (filename : String) : Except Err Unarchiver :=
  if goHasSuffix filename ".zip" then .ok .zipU
  else if goHasSuffix filename ".tar.gz" then .ok .targzU
  else .error (.cannotInferArchive filename)

/-- Running the chosen unarchiver: the byte-level parse (zip central
directory, gzip stream) is the environment's, the per-entry extraction is the
embedded source. -/
def runUnarchiver (c : Collab) (u : Unarchiver) (dst : GoPath) (data : List Nat)
    (st : St) : Option Err × St :=
  match u with
  | .zipU =>
    let (entries, perr) := c.parseZip data
    match perr with
    | some e => (some e, st)
    | none => extractZIP dst entries st
  | .targzU =>
    let (entries, perr) := c.parseTar data
    match perr with
    | some e => (some (.wrap "failed to create gzip reader" e), st)
    | none => extractTARGZ dst entries st

/-- The two `download.Fetcher` variants. -/
inductive Fetcher where
  | httpF (url : String)
  | fileF (path : String)
deriving DecidableEq

/-- `initFetcher` (install.go). -/
def initFetcher (url fileOverride : String) : Fetcher :=
  if fileOverride ≠ "" then .fileF fileOverride else .httpF url

/-- `Fetcher.Get` followed by `ioutil.ReadAll`: the whole body as bytes. -/
def Fetcher.get (c : Collab) (f : Fetcher) (st : St) : Except Err (List Nat) × St :=
  match f with
  | .httpF url => (c.http url, st)
  | .fileF path =>
    let (r, st) := osOpenRead (c.parsePath path) st
    match r with
    | .ok data => (.ok data, st)
    | .error e => (.error (.fsErr e), st)

/-- The part of `Install` after the staging directory exists; split out
because the source registers a deferred `os.RemoveAll(stagingDir)` there, so
every later return path must run that cleanup.  Covers the move, the
install-directory creation, the activation (with its own deferred
`os.Remove(installDir)` on failure), the executable-path check and the
linking. -/
def installPhase2 (c : Collab) (p : Paths) (name version : String)
    (platform : Platform) (extractDir stagingDir : GoPath) (st : St) :
    Option Err × St :=
  let (merr, st) := moveAllFiles c.cwd extractDir stagingDir platform.Files st
  match merr with
  | some e => (some (.wrap "failed to move files" e), st)
  | none =>
    let installDir := p.PluginVersionInstallPath name version
    let (de, st) := osMkdirAll installDir st
    match de with
    | some e => (some (.wrap "could not create installation directory" (.fsErr e)), st)
    | none =>
      let (me, st) := moveOrCopyDir stagingDir installDir st
      match me with
      | some e =>
        let (_, st) := osRemove installDir st
        (some (.wrap "could not rename staging dir" e), st)
      | none =>
        let executablePath := goJoin installDir platform.Bin
        match evaluateBinPath c.cwd installDir executablePath with
        | some e => (some (.wrap "symlink unsafe" e), st)
        | none =>
          let linkPath := goJoin p.binPath ⟨false, [pluginNameToBin name (isWindows c)]⟩
          let (le, st) := createOrUpdateLink executablePath linkPath st
          match le with
          | some e => (some (.wrap "cannot link plugin" e), st)
          | none => (none, st)

/-- `Install` (install.go): reject if already installed (checking the name's
safety first), select the platform, resolve the version, build verifier /
unarchiver / fetcher, fetch, verify, extract into the download directory,
create a staging directory, then relocate, activate and link
(`installPhase2`), always cleaning the staging directory up afterwards. -/
def Install (c : Collab) (p : Paths) (plugin : Plugin) (forceHEAD : Bool)
    (forceDownloadFile : String) (st : St) : Option Err × St :=
  let name := plugin.Name
  let ((_, ok, err), st) := findInstalledPluginVersion c p.installPath p.binPath name st
  match err with
  | some e => (some e, st)
  | none =>
  if ok then (some .alreadyInstalled, st)
  else
    let (userOS, userArch) := osArch c
    let (platform, found, merr) := matchPlatformToSystemEnvs plugin.Platforms userOS userArch
    match merr with
    | some e => (some (.wrap "failed to find matching platform" e), st)
    | none =>
    if !found then
      (some (.msg ("plugin does not support platform " ++ userOS ++ "/" ++ userArch)), st)
    else
      let (version, downloadURL, verr) := choosePluginVersion platform forceHEAD
      match verr with
      | some e => (some (.wrap "could not choose a version to download" e), st)
      | none =>
      let downloadURL := if forceDownloadFile ≠ "" then forceDownloadFile else downloadURL
      let verifier := initVerifier (version = headVersion) platform.Sha256
      match initUnarchiver downloadURL with
      | .error e => (some (.wrap "cannot initialize unarchiver" e), st)
      | .ok unarchiver =>
        let fetcher := initFetcher downloadURL forceDownloadFile
        let (res, st) := Fetcher.get c fetcher st
        match res with
        | .error e => (some (.wrap "download failure" e), st)
        | .ok data =>
        match verifier.verify c.sha2 data with
        | some e => (some (.wrap "download could not be verified" e), st)
        | none =>
          let extractDir := goJoin p.downloadPath ⟨false, [name]⟩
          let (uerr, st) := runUnarchiver c unarchiver extractDir data st
          match uerr with
          | some e => (some (.wrap "extract failure" e), st)
          | none =>
            let stagingDir := c.stagingDir
            let st := osTempDir stagingDir st
            let (r, st) := installPhase2 c p name version platform extractDir stagingDir st
            let st := osRemoveAll stagingDir st
            (r, st)

/-- `Remove` (install.go): refuse to remove krew itself; find the installed
version via the link (unsafe names rejected there); `NotInstalled` when the
lookup finds nothing; otherwise remove the link and then the plugin's install
directory. -/
def Remove (c : Collab) (p : Paths) (name : String) (st : St) : Option Err × St :=
  if name = krewPluginName then
    (some (.msg "removing krew is not allowed through krew, see docs for help"), st)
  else
    let ((_, installed, err), st) := findInstalledPluginVersion c p.installPath p.binPath name st
    match err with
    | some e => (some (.wrap "can't remove plugin" e), st)
    | none =>
      if !installed then (some .notInstalled, st)
      else
        let symlinkPath := goJoin p.binPath ⟨false, [pluginNameToBin name (isWindows c)]⟩
        let (e, st) := removeLink symlinkPath st
        match e with
        | some e => (some (.wrap "could not uninstall symlink of plugin" e), st)
        | none => (none, osRemoveAll (p.PluginInstallPath name) st)

/-- Claim C2.  The claim states `evaluateBinPath` returns a non-nil error
exactly when the candidate executable path is not a sub-path of the install
directory.  The code instead wraps a nil `err` in its failure branch, and
`errors.Wrapf(nil, ...)` is nil, so `evaluateBinPath` never returns a non-nil
error (first conjunct); at the concrete input `installDir = "/install"`,
`executablePath = Join(installDir, "../evil/x") = "/evil/x"` the sub-path
check fails and yet the function still returns nil, so the traversal is
accepted and `Install` proceeds to create the symlink. -/
theorem claim_C2_bug :
    (∀ (cwd installDir executablePath : GoPath),
      evaluateBinPath cwd installDir executablePath = none) ∧
    IsSubPath ⟨true, ["install"]⟩
      (goJoin ⟨true, ["install"]⟩ ⟨false, ["..", "evil", "x"]⟩) = none ∧
    evaluateBinPath ⟨true, []⟩ ⟨true, ["install"]⟩
      (goJoin ⟨true, ["install"]⟩ ⟨false, ["..", "evil", "x"]⟩) = none := by
  refine ⟨?_, by decide, by decide⟩
  intro cwd i e
  unfold evaluateBinPath wrapf
  split <;> rfl

/-- Claim C3.  The four-case resolution table of `choosePluginVersion`: a
head-only platform resolves to `("HEAD", head)` without forcing; a full
platform resolves to the lowercased checksum and immutable URI without
forcing, and to `("HEAD", head)` when forced; forcing with an empty head
fails. -/
theorem claim_C3 (h u d : String) (sel : Option LabelSelector) (bin : GoPath)
    (files : List FileOperation) :
    (h ≠ "" → choosePluginVersion ⟨h, "", "", sel, bin, files⟩ false =
      (headVersion, h, none)) ∧
    (h ≠ "" → d ≠ "" → choosePluginVersion ⟨h, u, d, sel, bin, files⟩ false =
      (goToLower d, u, none)) ∧
    (h ≠ "" → choosePluginVersion ⟨h, u, d, sel, bin, files⟩ true =
      (headVersion, h, none)) ∧
    choosePluginVersion ⟨"", u, d, sel, bin, files⟩ true = ("", "", some .noHead) := by
  refine ⟨?_, ?_, ?_, ?_⟩
  · intro hne
    simp [choosePluginVersion, hne]
  · intro hne dne
    simp [choosePluginVersion, hne, dne]
  · intro hne
    simp [choosePluginVersion, hne]
  · simp [choosePluginVersion]

/-- Claim C3, witness: the table at `head = "H"`, `uri = "U"`,
`sha256 = "D"`. -/
theorem claim_C3_witness :
    choosePluginVersion ⟨"H", "", "", none, ⟨false, []⟩, []⟩ false =
      (headVersion, "H", none) ∧
    choosePluginVersion ⟨"H", "U", "D", none, ⟨false, []⟩, []⟩ false =
      ("d", "U", none) ∧
    choosePluginVersion ⟨"H", "U", "D", none, ⟨false, []⟩, []⟩ true =
      (headVersion, "H", none) ∧
    choosePluginVersion ⟨"", "U", "D", none, ⟨false, []⟩, []⟩ true =
      ("", "", some .noHead) := by
  obtain ⟨h1, h2, h3, h4⟩ := claim_C3 "H" "U" "D" none ⟨false, []⟩ []
  exact ⟨h1 (by decide), by simpa using h2 (by decide) (by decide),
         h3 (by decide), h4⟩

/-- Claim C10.  With `forceHEAD = false`, `choosePluginVersion` never returns
an error, and a platform with empty head, URI and checksum resolves to the
empty version identifier and empty URI rather than failing. -/
theorem claim_C10 (p : Platform) :
    (choosePluginVersion p false).2.2 = none ∧
    ∀ (sel : Option LabelSelector) (bin : GoPath) (files : List FileOperation),
      choosePluginVersion ⟨"", "", "", sel, bin, files⟩ false = ("", "", none) := by
  constructor
  · unfold choosePluginVersion
    split
    · rfl
    · split
      · next hc => simp at hc
      · rfl
  · intro sel bin files
    simp [choosePluginVersion, goToLower]

/-- Claim C8.  Under the hypothesis that every listed descriptor's selector
compiles (the spec's data model only contains equality selectors, which
always do), platform selection returns the first descriptor in list order
whose selector matches `{os, arch}` paired with `true`, and
`(Platform{}, false)` with a nil error when none matches. -/
theorem claim_C8 (ps : List Platform) (osName arch : String)
    (h : ∀ q ∈ ps, (LabelSelectorAsSelector q.Selector).isOk = true) :
    matchPlatformToSystemEnvs ps osName arch =
      match ps.find? (platformMatches osName arch) with
      | some q => (q, true, none)
      | none => (emptyPlatform, false, none) := by
  induction ps with
  | nil => rfl
  | cons q rest ih =>
    have hq := h q (by simp)
    obtain ⟨sel, hsel⟩ : ∃ s, LabelSelectorAsSelector q.Selector = .ok s := by
      cases hc : LabelSelectorAsSelector q.Selector with
      | ok s => exact ⟨s, rfl⟩
      | error e => rw [hc] at hq; simp [Except.isOk, Except.toBool] at hq
    have hpm : platformMatches osName arch q = sel.matches (envLabels osName arch) := by
      simp [platformMatches, hsel]
    by_cases hm : sel.matches (envLabels osName arch) = true
    · rw [List.find?_cons_of_pos _ (by rw [hpm]; exact hm)]
      simp [matchPlatformToSystemEnvs, hsel, hm]
    · have hm' : sel.matches (envLabels osName arch) = false := by
        simpa using hm
      rw [List.find?_cons_of_neg _ (by rw [hpm, hm']; simp)]
      rw [show matchPlatformToSystemEnvs (q :: rest) osName arch =
            matchPlatformToSystemEnvs rest osName arch by
        simp [matchPlatformToSystemEnvs, hsel, hm']]
      exact ih (fun r hr => h r (List.mem_cons_of_mem _ hr))

/-- A descriptor whose selector is `{os: None}` (from the repository's own
test data). -/
def platformOsNone : Platform :=
  ⟨"B", "", "", some ⟨[("os", "None")], []⟩, ⟨false, []⟩, []⟩

/-- A descriptor whose selector is `{os: foo}`. -/
def platformOsFoo : Platform :=
  ⟨"A", "", "", some ⟨[("os", "foo")], []⟩, ⟨false, []⟩, []⟩

/-- Claim C8, witness: against the attribute set `{os: foo, arch: amdBar}`
the non-matching `{os: None}` descriptor is skipped and the first matching
descriptor is returned with `true`. -/
theorem claim_C8_witness :
    matchPlatformToSystemEnvs [platformOsNone, platformOsFoo] "foo" "amdBar" =
      (platformOsFoo, true, none) := by
  rw [claim_C8 [platformOsNone, platformOsFoo] "foo" "amdBar" (by decide)]
  decide

/-- The characters `/` and `\` of the claim's "path separator". -/
def hasPathSep (cs : List Char) : Bool :=
  cs.contains '/' || cs.contains '\\'

/-- Split a character list on both path separators (used only to state what
"contains a parent-directory segment" means). -/
def splitOnSeps : List Char → List (List Char)
  | [] => [[]]
  | c :: cs =>
    if c = '/' ∨ c = '\\' then [] :: splitOnSeps cs
    else
      match splitOnSeps cs with
      | s :: rest => (c :: s) :: rest
      | [] => [[c]]

/-- The claim's "contains a parent-directory segment": some separator-split
segment is `".."`. -/
def hasParentSegment (cs : List Char) : Bool :=
  (splitOnSeps cs).contains ['.', '.']

theorem splitOnSeps_of_noSep (cs : List Char) (h1 : cs.contains '/' = false)
    (h2 : cs.contains '\\' = false) : splitOnSeps cs = [cs] := by
  induction cs with
  | nil => rfl
  | cons c cs ih =>
    simp only [List.contains_cons, Bool.or_eq_false_iff] at h1 h2
    rw [splitOnSeps, if_neg (by
      rintro (hc | hc) <;> subst hc
      · simpa using h1.1
      · simpa using h2.1)]
    rw [ih h1.2 h2.2]

theorem IsSafePluginName_eq_false_of (name : String)
    (h : hasPathSep name.data = true ∨ hasParentSegment name.data = true) :
    IsSafePluginName name = false := by
  by_cases h1 : '/' ∈ name.data
  · have hc : name.data.contains '/' = true := by simpa using h1
    unfold IsSafePluginName
    rw [hc]
    simp
  · by_cases h2 : '\\' ∈ name.data
    · have hc : name.data.contains '\\' = true := by simpa using h2
      unfold IsSafePluginName
      rw [hc]
      simp
    · have h1' : name.data.contains '/' = false := by simpa using h1
      have h2' : name.data.contains '\\' = false := by simpa using h2
      rcases h with hsep | hpar
      · exfalso
        rw [hasPathSep, h1', h2'] at hsep
        simp at hsep
      · rw [hasParentSegment, splitOnSeps_of_noSep name.data h1' h2'] at hpar
        simp only [List.contains_cons, List.contains_nil, Bool.or_eq_true,
          beq_iff_eq] at hpar
        have hd : name.data = ['.', '.'] := by
          rcases hpar with hp | hp
          · exact hp.symm
          · simp at hp
        unfold IsSafePluginName
        rw [hd]
        decide

/-- Claim C5.  For every plugin name containing a parent-directory segment or
a path separator, `Install` and `Remove` return the unsafe-name error (the
latter wrapped in its "can't remove plugin" context) with the state — both
the filesystem and the access trace — exactly as it was: the safety check in
`findInstalledPluginVersion` runs before the symlink is read and before any
directory is created, moved or deleted. -/
theorem claim_C5 (c : Collab) (p : Paths) (plugin : Plugin) (forceHEAD : Bool)
    (forceDownloadFile : String) (st : St)
    (h : hasPathSep plugin.Name.data = true ∨ hasParentSegment plugin.Name.data = true) :
    Install c p plugin forceHEAD forceDownloadFile st =
      (some (.unsafeName plugin.Name), st) ∧
    Remove c p plugin.Name st =
      (some (.wrap "can't remove plugin" (.unsafeName plugin.Name)), st) := by
  have hunsafe := IsSafePluginName_eq_false_of plugin.Name h
  have hkrew : ¬(plugin.Name = krewPluginName) := by
    intro he
    rw [he] at hunsafe
    exact absurd hunsafe (by decide)
  constructor
  · simp [Install, findInstalledPluginVersion, hunsafe]
  · simp [Remove, findInstalledPluginVersion, hunsafe, hkrew]

/-- A fully concrete collaborator record for witnesses: native linux/amd64,
no overrides, no network, trivial hash and parsers. -/
def collab0 : Collab :=
  ⟨"linux", "amd64", "", "", ⟨true, []⟩, fun _ => .error (.msg "no network"),
   fun _ => [], fun _ => ([], none), fun _ => ([], none),
   ⟨true, ["tmp", "staging"]⟩, fun _ => ⟨false, []⟩⟩

/-- Concrete base directories for witnesses. -/
def paths0 : Paths :=
  ⟨⟨true, ["install"]⟩, ⟨true, ["bin"]⟩, ⟨true, ["download"]⟩⟩

/-- A concrete starting state: the base directories exist and nothing else
does; the trace is empty. -/
def st0 : St :=
  ⟨⟨[], [⟨true, []⟩, ⟨true, ["install"]⟩, ⟨true, ["bin"]⟩, ⟨true, ["download"]⟩], []⟩, []⟩

/-- Claim C5, witness: the name `"../up"` (separator and parent segment). -/
theorem claim_C5_witness :
    Install collab0 paths0 ⟨"../up", []⟩ false "" st0 =
      (some (.unsafeName "../up"), st0) ∧
    Remove collab0 paths0 "../up" st0 =
      (some (.wrap "can't remove plugin" (.unsafeName "../up")), st0) :=
  claim_C5 collab0 paths0 ⟨"../up", []⟩ false "" st0 (Or.inl (by decide))

theorem lookup_none_of_not_any {α β : Type} [DecidableEq α] (l : List (α × β))
    (a : α) (h : l.any (fun e => e.1 == a) = false) : l.lookup a = none := by
  induction l with
  | nil => rfl
  | cons e l ih =>
    simp only [List.any_cons, Bool.or_eq_false_iff] at h
    have hne : (a == e.1) = false := by
      have := h.1
      simp only [beq_eq_false_iff_ne] at this ⊢
      exact Ne.symm this
    simp [List.lookup, hne, ih h.2]

/-- Claim C9, amended.  For every safe plugin name other than krew's own with
nothing at all at its link path, `Remove` fails with `NotInstalled`, the
filesystem is unchanged, and the only access performed is the single
symlink read. (The claim as frozen also covers a non-symlink entry occupying
the link path, where the code fails with a link-read error instead — see the
counterexample.) -/
theorem claim_C9 (c : Collab) (p : Paths) (name : String) (st : St)
    (hk : ¬(name = krewPluginName)) (hsafe : IsSafePluginName name = true)
    (hnl : st.fs.isLink (goJoin p.binPath ⟨false, [pluginNameToBin name (isWindows c)]⟩) = false)
    (hnf : st.fs.isFile (goJoin p.binPath ⟨false, [pluginNameToBin name (isWindows c)]⟩) = false)
    (hnd : st.fs.isDir (goJoin p.binPath ⟨false, [pluginNameToBin name (isWindows c)]⟩) = false) :
    Remove c p name st =
      (some .notInstalled,
       ⟨st.fs, st.tr ++ [.readlink (goJoin p.binPath ⟨false, [pluginNameToBin name (isWindows c)]⟩)]⟩) := by
  have hlkp : st.fs.links.lookup
      (goJoin p.binPath ⟨false, [pluginNameToBin name (isWindows c)]⟩) = none :=
    lookup_none_of_not_any _ _ hnl
  simp [Remove, findInstalledPluginVersion, hk, hsafe, osReadlink, St.log, hlkp,
    hnf, hnd]

/-- Claim C9, witness: removing the absent plugin `"foo"` in the concrete
empty layout fails with `NotInstalled` after exactly one link read. -/
theorem claim_C9_witness :
    Remove collab0 paths0 "foo" st0 =
      (some .notInstalled,
       ⟨st0.fs, st0.tr ++ [.readlink (goJoin paths0.binPath
          ⟨false, [pluginNameToBin "foo" (isWindows collab0)]⟩)]⟩) :=
  claim_C9 collab0 paths0 "foo" st0 (by decide) (by decide) (by decide) (by decide)
    (by decide)

/-- A state where a regular file — not a symlink — occupies `"foo"`'s link
path. -/
def stLinkFile : St :=
  ⟨⟨[(⟨true, ["bin", "kubectl-foo"]⟩, [])],
    [⟨true, []⟩, ⟨true, ["install"]⟩, ⟨true, ["bin"]⟩, ⟨true, ["download"]⟩], []⟩, []⟩

/-- Claim C9, counterexample to the claim as frozen: the plugin `"foo"` has no
installed version recorded by a link (a stray regular file sits at the link
path), yet `Remove` fails with the wrapped link-read error, not with
`NotInstalled`. -/
theorem claim_C9_counterexample :
    stLinkFile.fs.isLink ⟨true, ["bin", "kubectl-foo"]⟩ = false ∧
    (Remove collab0 paths0 "foo" stLinkFile).1.isSome = true ∧
    (Remove collab0 paths0 "foo" stLinkFile).1 ≠ some Err.notInstalled := by
  decide

theorem moveFiles_unclean (cwd f t : GoPath) (fo : FileOperation) (st : St)
    (h : fo.To ≠ goClean fo.To) :
    moveFiles cwd f t fo st =
      (some (.wrap "could not find move targets" (.notClean fo.To (goClean fo.To))), st) := by
  simp [moveFiles, findMoveTargets, h]

theorem moveAllFiles_append (cwd f t : GoPath) (fos1 fos2 : List FileOperation)
    (st st1 : St) (h : moveAllFiles cwd f t fos1 st = (none, st1)) :
    moveAllFiles cwd f t (fos1 ++ fos2) st = moveAllFiles cwd f t fos2 st1 := by
  induction fos1 generalizing st with
  | nil =>
    simp only [moveAllFiles, Prod.mk.injEq] at h
    rw [List.nil_append, h.2]
  | cons fo fos ih =>
    rcases hm : moveFiles cwd f t fo st with ⟨e, st'⟩
    cases e with
    | some e =>
      rw [moveAllFiles, hm] at h
      simp at h
    | none =>
      rw [moveAllFiles, hm] at h
      rw [List.cons_append, moveAllFiles, hm]
      exact ih st' h

/-- Claim C4, amended.  If some operation's `to` is not already clean, then
relocating any set that reaches it fails with the not-clean error, the moves
of the unclean operation and of every later operation never execute, and the
state is exactly the one produced by the operations listed before it — the
moves of those earlier operations, however, do execute before the failure is
detected (the counterexample shows the frozen claim's "no filesystem mutation
occurs for any operation" is false for them). -/
theorem claim_C4 (cwd f t : GoPath) (fos1 : List FileOperation)
    (fo : FileOperation) (fos2 : List FileOperation) (st st1 : St)
    (hun : fo.To ≠ goClean fo.To)
    (hok : moveAllFiles cwd f t fos1 st = (none, st1)) :
    moveAllFiles cwd f t (fos1 ++ fo :: fos2) st =
      (some (.wrap "failed moving files"
        (.wrap "could not find move targets" (.notClean fo.To (goClean fo.To)))), st1) := by
  rw [moveAllFiles_append cwd f t fos1 (fo :: fos2) st st1 hok]
  rw [moveAllFiles, moveFiles_unclean cwd f t fo st1 hun]

def exDir : GoPath := ⟨true, ["ex"]⟩

def stgDir : GoPath := ⟨true, ["st"]⟩

/-- A clean file operation moving the file `a`. -/
def op1 : FileOperation := ⟨⟨false, ["a"]⟩, ⟨false, ["a"]⟩⟩

/-- An operation whose `to` value `"./b"` is not clean (`Clean` gives
`"b"`). -/
def op2 : FileOperation := ⟨⟨false, ["b"]⟩, ⟨false, [".", "b"]⟩⟩

/-- Extraction root `/ex` holding one file `a`, staging root `/st` empty. -/
def stC4 : St :=
  ⟨⟨[(⟨true, ["ex", "a"]⟩, [7])], [⟨true, []⟩, exDir, stgDir], []⟩, []⟩

/-- Claim C4, counterexample to the claim as frozen: with the set
`[op1, op2]` where only `op2`'s `to` is unclean, `moveAllFiles` does fail —
but the filesystem has already been mutated by `op1`'s move, contradicting
"no filesystem mutation occurs for any operation, including operations listed
earlier than the unclean one". -/
theorem claim_C4_counterexample :
    op2.To ≠ goClean op2.To ∧
    (moveAllFiles ⟨true, []⟩ exDir stgDir [op1, op2] stC4).1.isSome = true ∧
    (moveAllFiles ⟨true, []⟩ exDir stgDir [op1, op2] stC4).2.fs ≠ stC4.fs := by
  decide

/-- Claim C4, witness: the amended statement at the concrete two-operation
set. -/
theorem claim_C4_witness :
    moveAllFiles ⟨true, []⟩ exDir stgDir [op1, op2] stC4 =
      (some (.wrap "failed moving files"
        (.wrap "could not find move targets" (.notClean op2.To (goClean op2.To)))),
       (moveAllFiles ⟨true, []⟩ exDir stgDir [op1] stC4).2) :=
  claim_C4 ⟨true, []⟩ exDir stgDir [op1] op2 [] stC4
    (moveAllFiles ⟨true, []⟩ exDir stgDir [op1] stC4).2 (by decide) (by decide)

theorem goAbs_self (cwd p : GoPath) (ha : p.isAbs = true) (hc : goClean p = p) :
    goAbs cwd p = p := by
  unfold goAbs
  rw [if_pos ha, hc]

theorem getDirectMove_fs (cwd f t : GoPath) (fo : FileOperation) (st : St) :
    ((getDirectMove cwd f t fo st).2).fs = st.fs := by
  simp only [getDirectMove, osStat, St.log]
  cases hex : st.fs.existsPath (goClean (goJoin (goAbs cwd f) fo.From))
  all_goals simp [hex]
  all_goals repeat' split
  all_goals rfl

theorem getDirectMove_ok (cwd f t : GoPath) (fo : FileOperation) (st : St)
    (m : Move) (st2 : St)
    (h : getDirectMove cwd f t fo st = ((m, true, none), st2)) :
    isMoveAllowed (goAbs cwd f) (goAbs cwd t) m = true := by
  simp only [getDirectMove, osStat, St.log] at h
  cases hex : st.fs.existsPath (goClean (goJoin (goAbs cwd f) fo.From)) with
  | false =>
    rw [hex] at h
    simp at h
  | true =>
    rw [hex] at h
    cases hal : isMoveAllowed (goAbs cwd f) (goAbs cwd t)
        ⟨goClean (goJoin (goAbs cwd f) fo.From),
         goAbs cwd (goJoin (goAbs cwd t)
           (if goClean fo.To = dotPath
            then ⟨false, [goBase (goClean (goJoin (goAbs cwd f) fo.From))]⟩
            else fo.To))⟩ with
    | false =>
      rw [hal] at h
      simp at h
    | true =>
      rw [hal] at h
      simp only [Bool.not_true, Bool.false_eq_true, if_false, Prod.mk.injEq] at h
      rw [← h.1.1]
      exact hal

theorem collectMoves_ok (f t nd : GoPath) (vs : List GoPath) (ms : List Move)
    (h : collectMoves f t nd vs = (ms, none)) :
    ∀ m ∈ ms, isMoveAllowed f t m = true := by
  induction vs generalizing ms with
  | nil =>
    simp only [collectMoves, Prod.mk.injEq] at h
    rw [← h.1]
    intro m hm
    cases hm
  | cons v vs ih =>
    rw [collectMoves] at h
    by_cases ha : isMoveAllowed f t ⟨v, goJoin nd ⟨false, [goBase v]⟩⟩ = true
    · rw [if_neg (by simp [ha])] at h
      rcases hc : collectMoves f t nd vs with ⟨ms', e⟩
      rw [hc] at h
      cases e with
      | some e => simp at h
      | none =>
        simp only [Prod.mk.injEq] at h
        rw [← h.1]
        intro m hm
        rcases List.mem_cons.mp hm with rfl | hm'
        · exact ha
        · exact ih ms' hc m hm'
    · rw [if_pos (by simp [Bool.not_eq_true] at ha ⊢; exact ha)] at h
      simp at h

theorem collectMoves_bad (f t nd : GoPath) (vs : List GoPath) (v : GoPath)
    (hv : v ∈ vs)
    (hb : isMoveAllowed f t ⟨v, goJoin nd ⟨false, [goBase v]⟩⟩ = false) :
    ((collectMoves f t nd vs).2).isSome = true := by
  induction vs with
  | nil => cases hv
  | cons w vs ih =>
    rw [collectMoves]
    by_cases ha : isMoveAllowed f t ⟨w, goJoin nd ⟨false, [goBase w]⟩⟩ = true
    · rw [if_neg (by simp [ha])]
      have hv' : v ∈ vs := by
        rcases List.mem_cons.mp hv with rfl | h'
        · rw [ha] at hb; cases hb
        · exact h'
      rcases hc : collectMoves f t nd vs with ⟨ms', e⟩
      have hrec := ih hv'
      rw [hc] at hrec
      cases e with
      | none => simp at hrec
      | some e => simp
    · rw [if_pos (by simp [Bool.not_eq_true] at ha ⊢; exact ha)]
      simp

theorem findMoveTargets_fs (cwd f t : GoPath) (fo : FileOperation) (st : St) :
    ((findMoveTargets cwd f t fo st).2).fs = st.fs := by
  by_cases hTo : fo.To ≠ goClean fo.To
  · rw [findMoveTargets, if_pos hTo]
  · rw [findMoveTargets, if_neg hTo]
    rcases hgd : getDirectMove cwd (goAbs cwd f) t fo st with ⟨⟨m, ok, derr⟩, st2⟩
    have hfs2 : st2.fs = st.fs := by
      have h := getDirectMove_fs cwd (goAbs cwd f) t fo st
      rw [hgd] at h
      exact h
    simp only [hgd]
    cases derr with
    | some e => exact hfs2
    | none =>
      cases ok with
      | true => exact hfs2
      | false =>
        simp only [globFS, St.log]
        by_cases hgl : globList st2.fs (goJoin (goAbs cwd f) fo.From) = []
        · rw [if_pos hgl]
          exact hfs2
        · rw [if_neg hgl]
          exact hfs2

/-- Claim C1.  Under roots that are absolute and clean (as the orchestrator
supplies them): (a) whenever `findMoveTargets` returns a move list
successfully, every move's source is a sub-path of the extraction root and
its destination a sub-path of the staging root; (b) a direct candidate that
exists but violates containment makes the whole call fail; (c) a glob-derived
candidate violating containment makes the whole call fail; (d) when
`findMoveTargets` fails, `moveFiles` leaves the filesystem untouched, so no
file of that operation is relocated. -/
theorem claim_C1 (cwd fromDir toDir : GoPath) (fo : FileOperation) (st : St)
    (hfa : fromDir.isAbs = true) (hfc : goClean fromDir = fromDir)
    (hta : toDir.isAbs = true) (htc : goClean toDir = toDir) :
    (∀ moves st', findMoveTargets cwd fromDir toDir fo st = ((moves, none), st') →
      ∀ m ∈ moves, (IsSubPath fromDir m.From).isSome = true ∧
        (IsSubPath toDir m.To).isSome = true) ∧
    (st.fs.existsPath (goClean (goJoin fromDir fo.From)) = true →
      isMoveAllowed fromDir toDir
        ⟨goClean (goJoin fromDir fo.From),
         goAbs cwd (goJoin toDir
           (if goClean fo.To = dotPath
            then ⟨false, [goBase (goClean (goJoin fromDir fo.From))]⟩
            else fo.To))⟩ = false →
      (((findMoveTargets cwd fromDir toDir fo st).1).2).isSome = true) ∧
    (∀ v, st.fs.existsPath (goClean (goJoin fromDir fo.From)) = false →
      v ∈ globList st.fs (goJoin fromDir fo.From) →
      isMoveAllowed fromDir toDir
        ⟨v, goJoin (goAbs cwd (goJoin toDir fo.To)) ⟨false, [goBase v]⟩⟩ = false →
      (((findMoveTargets cwd fromDir toDir fo st).1).2).isSome = true) ∧
    ((((findMoveTargets cwd fromDir toDir fo st).1).2).isSome = true →
      ((moveFiles cwd fromDir toDir fo st).2).fs = st.fs) := by
  have habs : goAbs cwd fromDir = fromDir := goAbs_self cwd fromDir hfa hfc
  have habt : goAbs cwd toDir = toDir := goAbs_self cwd toDir hta htc
  refine ⟨?_, ?_, ?_, ?_⟩
  · -- (a) success implies containment
    intro moves st' h m hm
    by_cases hTo : fo.To ≠ goClean fo.To
    · rw [findMoveTargets, if_pos hTo] at h
      simp at h
    · rw [findMoveTargets, if_neg hTo] at h
      simp only [habs] at h
      rcases hgd : getDirectMove cwd fromDir toDir fo st with ⟨⟨md, ok, derr⟩, st2⟩
      simp only [hgd] at h
      cases derr with
      | some e => simp at h
      | none =>
        cases ok with
        | true =>
          simp only [eq_self_iff_true, if_true, Prod.mk.injEq] at h
          have hall := getDirectMove_ok cwd fromDir toDir fo st md st2 hgd
          rw [habs, habt] at hall
          simp only [isMoveAllowed, Bool.and_eq_true] at hall
          rw [← h.1.1] at hm
          rcases List.mem_cons.mp hm with rfl | hm'
          · exact hall
          · cases hm'
        | false =>
          simp only [Bool.false_eq_true, if_false, globFS, St.log] at h
          by_cases hgl : globList st2.fs (goJoin fromDir fo.From) = []
          · rw [if_pos hgl] at h
            simp at h
          · rw [if_neg hgl] at h
            rcases hc : collectMoves fromDir toDir
                (goAbs cwd (goJoin toDir fo.To))
                (globList st2.fs (goJoin fromDir fo.From)) with ⟨ms', e⟩
            rw [hc] at h
            simp only [Prod.mk.injEq] at h
            cases e with
            | some e => simp at h
            | none =>
              have hok := collectMoves_ok fromDir toDir
                (goAbs cwd (goJoin toDir fo.To))
                (globList st2.fs (goJoin fromDir fo.From)) ms' hc
              rw [← h.1.1] at hm
              have hall := hok m hm
              simp only [isMoveAllowed, Bool.and_eq_true] at hall
              exact hall
  · -- (b) existing direct candidate violating containment fails the call
    intro hex hbad
    by_cases hTo : fo.To ≠ goClean fo.To
    · rw [findMoveTargets, if_pos hTo]
      rfl
    · have hgd : getDirectMove cwd fromDir toDir fo st =
          ((emptyMove, false, some (.moveNotAllowed
            ⟨goClean (goJoin fromDir fo.From),
             goAbs cwd (goJoin toDir
               (if goClean fo.To = dotPath
                then ⟨false, [goBase (goClean (goJoin fromDir fo.From))]⟩
                else fo.To))⟩)),
           ⟨st.fs, st.tr ++ [.stat (goClean (goJoin fromDir fo.From))]⟩) := by
        simp only [getDirectMove, osStat, St.log, habs, habt, hex, hbad]
        simp
      rw [findMoveTargets, if_neg hTo]
      simp only [habs, hgd]
      rfl
  · -- (c) glob-derived candidate violating containment fails the call
    intro v hnex hv hbad
    by_cases hTo : fo.To ≠ goClean fo.To
    · rw [findMoveTargets, if_pos hTo]
      rfl
    · have hgd : getDirectMove cwd fromDir toDir fo st =
          ((emptyMove, false, none),
           ⟨st.fs, st.tr ++ [.stat (goClean (goJoin fromDir fo.From))]⟩) := by
        simp only [getDirectMove, osStat, St.log, habs, habt, hnex]
        simp
      rw [findMoveTargets, if_neg hTo]
      simp only [habs, hgd, Bool.false_eq_true, if_false, globFS, St.log]
      rw [if_neg (List.ne_nil_of_mem hv)]
      have hbadr := collectMoves_bad fromDir toDir (goAbs cwd (goJoin toDir fo.To))
        (globList st.fs (goJoin fromDir fo.From)) v hv hbad
      rcases hc : collectMoves fromDir toDir (goAbs cwd (goJoin toDir fo.To))
        (globList st.fs (goJoin fromDir fo.From)) with ⟨ms', e⟩
      rw [hc] at hbadr
      simp only [hc]
      exact hbadr
  · -- (d) a failing findMoveTargets leaves the filesystem untouched
    intro hfail
    rcases hf : findMoveTargets cwd fromDir toDir fo st with ⟨⟨moves, err⟩, st'⟩
    have hfs : st'.fs = st.fs := by
      have h := findMoveTargets_fs cwd fromDir toDir fo st
      rw [hf] at h
      exact h
    rw [hf] at hfail
    simp only [moveFiles, hf]
    cases err with
    | some e => exact hfs
    | none => simp at hfail

def rootPath : GoPath := ⟨true, []⟩

/-- A contained direct operation: `bin/foo → bin/foo`. -/
def opA : FileOperation := ⟨⟨false, ["bin", "foo"]⟩, ⟨false, ["bin", "foo"]⟩⟩

/-- A direct operation whose destination `"../esc"` escapes the staging
root. -/
def opB : FileOperation := ⟨⟨false, ["bin", "foo"]⟩, ⟨false, ["..", "esc"]⟩⟩

/-- A glob operation `bin/*` whose destination `"../esc"` escapes the staging
root. -/
def opC : FileOperation := ⟨⟨false, ["bin", "*"]⟩, ⟨false, ["..", "esc"]⟩⟩

/-- Extraction root `/ex` holding `bin/foo`, staging root `/st`. -/
def stW : St :=
  ⟨⟨[(⟨true, ["ex", "bin", "foo"]⟩, [1])],
    [rootPath, exDir, ⟨true, ["ex", "bin"]⟩, stgDir], []⟩, []⟩

/-- Claim C1, witness: a successful direct move is contained in both roots; a
direct candidate escaping the staging root fails the call; a glob-derived
candidate escaping it fails the call; and the failing call moves nothing. -/
theorem claim_C1_witness :
    ((IsSubPath exDir (⟨true, ["ex", "bin", "foo"]⟩ : GoPath)).isSome = true ∧
     (IsSubPath stgDir (⟨true, ["st", "bin", "foo"]⟩ : GoPath)).isSome = true) ∧
    (((findMoveTargets rootPath exDir stgDir opB stW).1).2).isSome = true ∧
    (((findMoveTargets rootPath exDir stgDir opC stW).1).2).isSome = true ∧
    ((moveFiles rootPath exDir stgDir opB stW).2).fs = stW.fs := by
  refine ⟨?_, ?_, ?_, ?_⟩
  · exact (claim_C1 rootPath exDir stgDir opA stW (by decide) (by decide)
      (by decide) (by decide)).1
      [⟨⟨true, ["ex", "bin", "foo"]⟩, ⟨true, ["st", "bin", "foo"]⟩⟩]
      ⟨stW.fs, [.stat ⟨true, ["ex", "bin", "foo"]⟩]⟩ (by decide)
      ⟨⟨true, ["ex", "bin", "foo"]⟩, ⟨true, ["st", "bin", "foo"]⟩⟩
      (List.mem_singleton.mpr rfl)
  · exact (claim_C1 rootPath exDir stgDir opB stW (by decide) (by decide)
      (by decide) (by decide)).2.1 (by decide) (by decide)
  · exact (claim_C1 rootPath exDir stgDir opC stW (by decide) (by decide)
      (by decide) (by decide)).2.2.1 ⟨true, ["ex", "bin", "foo"]⟩ (by decide)
      (by decide) (by decide)
  · exact (claim_C1 rootPath exDir stgDir opB stW (by decide) (by decide)
      (by decide) (by decide)).2.2.2 (by decide)

theorem lookup_filter_append {β : Type} (l : List (GoPath × β)) (p : GoPath)
    (c : β) :
    ((l.filter (fun e => !(e.1 == p))) ++ [(p, c)]).lookup p = some c := by
  induction l with
  | nil => simp [List.lookup]
  | cons e l ih =>
    by_cases he : e.1 = p
    · have hbe : (e.1 == p) = true := by simpa [beq_iff_eq] using he
      simp only [List.filter, hbe, Bool.not_true]
      exact ih
    · have hbe : (e.1 == p) = false := by simpa [beq_iff_eq] using he
      have hpe : (p == e.1) = false := by
        simpa [beq_iff_eq] using (Ne.symm he)
      simp only [List.filter, hbe, Bool.not_false, List.cons_append,
        List.lookup, hpe]
      exact ih

/-- The destination directory for the C6 scenario. -/
def dstDir : GoPath := ⟨true, ["dst"]⟩

/-- A state holding the file `/dst/a` with bytes `[1, 1, 1]`. -/
def stC6 : St :=
  ⟨⟨[(⟨true, ["dst", "a"]⟩, [1, 1, 1])], [rootPath, dstDir], []⟩, []⟩

/-- A one-byte tar regular-file entry named `a`. -/
def tarEntryA : TarEntry := ⟨⟨false, ["a"]⟩, tarTypeReg, 0, [2]⟩

/-- A one-byte zip regular-file entry named `a`. -/
def zipEntryA : ZipEntry := ⟨⟨false, ["a"]⟩, false, 0, [2]⟩

/-- Claim C6, counterexample to the claim as frozen: extracting the one-byte
entry `a` over the existing three-byte file `/dst/a`, the zip extractor
truncates (result `[2]`) but the tar extractor opens without `O_TRUNC` and
leaves the old tail (result `[2, 1, 1]`), so the resulting content does not
equal the entry's content in the tar variant. -/
theorem claim_C6_counterexample :
    ((extractZIP dstDir [zipEntryA] stC6).2).fs.fileContent
      ⟨true, ["dst", "a"]⟩ = some [2] ∧
    ((extractTARGZ dstDir [tarEntryA] stC6).2).fs.fileContent
      ⟨true, ["dst", "a"]⟩ = some [2, 1, 1] ∧
    ((extractTARGZ dstDir [tarEntryA] stC6).2).fs.fileContent
      ⟨true, ["dst", "a"]⟩ ≠ some tarEntryA.content := by
  decide

/-- Claim C6, amended.  For a regular-file entry whose destination already
holds a file: the zip extractor creates the file truncating the old content,
so the result equals the entry's content; the tar extractor opens the file
without `O_TRUNC`, so the entry's bytes overwrite the old from offset zero
and any old tail beyond the entry's length survives — the two extractors
agree only when the old content is not longer than the entry's. -/
theorem claim_C6 (st : St) (dir name : GoPath) (content old : List Nat)
    (mode mode2 : Nat)
    (hpax : ¬(name = (⟨false, ["pax_global_header"]⟩ : GoPath)))
    (hnotdir : st.fs.isDir (goJoin dir name) = false)
    (hparent : st.fs.isDir (goDir (goJoin dir name)) = true)
    (hold : st.fs.fileContent (goJoin dir name) = some old) :
    (extractZIP dir [⟨name, false, mode, content⟩] st).1 = none ∧
    ((extractZIP dir [⟨name, false, mode, content⟩] st).2).fs.fileContent
      (goJoin dir name) = some content ∧
    (extractTARGZ dir [⟨name, tarTypeReg, mode2, content⟩] st).1 = none ∧
    ((extractTARGZ dir [⟨name, tarTypeReg, mode2, content⟩] st).2).fs.fileContent
      (goJoin dir name) = some (content ++ old.drop content.length) := by
  have hz : extractZIP dir [⟨name, false, mode, content⟩] st =
      (none, ⟨⟨st.fs.files.filter (fun e => !(e.1 == goJoin dir name)) ++
                 [(goJoin dir name, content)], st.fs.dirs, st.fs.links⟩,
              st.tr ++ [.openWrite (goJoin dir name)]⟩) := by
    simp [extractZIP, zipStep, fsOpenWriteTrunc, St.log, hnotdir, hparent]
  have ht : extractTARGZ dir [⟨name, tarTypeReg, mode2, content⟩] st =
      (none, ⟨⟨st.fs.files.filter (fun e => !(e.1 == goJoin dir name)) ++
                 [(goJoin dir name, content ++ old.drop content.length)],
               st.fs.dirs, st.fs.links⟩,
              st.tr ++ [.openWrite (goJoin dir name)]⟩) := by
    simp [extractTARGZ, tarStep, fsOpenWriteKeep, St.log, hpax, hnotdir,
      hparent, tarTypeReg, tarTypeDir, hold]
  refine ⟨?_, ?_, ?_, ?_⟩
  · rw [hz]
  · rw [hz]
    exact lookup_filter_append st.fs.files (goJoin dir name) content
  · rw [ht]
  · rw [ht]
    exact lookup_filter_append st.fs.files (goJoin dir name)
      (content ++ old.drop content.length)

/-- Claim C6, witness: the amended statement at the concrete `/dst/a`
scenario. -/
theorem claim_C6_witness :
    (extractZIP dstDir [zipEntryA] stC6).1 = none ∧
    ((extractZIP dstDir [zipEntryA] stC6).2).fs.fileContent
      ⟨true, ["dst", "a"]⟩ = some [2] ∧
    (extractTARGZ dstDir [tarEntryA] stC6).1 = none ∧
    ((extractTARGZ dstDir [tarEntryA] stC6).2).fs.fileContent
      ⟨true, ["dst", "a"]⟩ = some ([2] ++ [1, 1, 1].drop 1) :=
  claim_C6 stC6 dstDir ⟨false, ["a"]⟩ [2] [1, 1, 1] 0 0 (by decide) (by decide)
    (by decide) (by decide)

/-- Claim C7.  During tar extraction: an entry literally named
`pax_global_header` is skipped entirely — extracting any archive containing
it equals extracting the archive with that entry removed — and an entry whose
type is neither directory nor regular file fails the whole extraction with the
unsupported-type error while the effects of all entries processed before it
are kept. -/
theorem claim_C7 :
    (∀ (st : St) (dir : GoPath) (es1 es2 : List TarEntry)
       (flag mode : Nat) (content : List Nat),
       extractTARGZ dir
         (es1 ++ ⟨⟨false, ["pax_global_header"]⟩, flag, mode, content⟩ :: es2) st =
       extractTARGZ dir (es1 ++ es2) st) ∧
    (∀ (st st1 : St) (dir : GoPath) (es1 es2 : List TarEntry) (e : TarEntry),
       ¬(e.name = (⟨false, ["pax_global_header"]⟩ : GoPath)) →
       ¬(e.typeflag = tarTypeDir) → ¬(e.typeflag = tarTypeReg) →
       extractTARGZ dir es1 st = (none, st1) →
       extractTARGZ dir (es1 ++ e :: es2) st =
         (some (.unsupportedType e.typeflag e.name), st1)) := by
  constructor
  · intro st dir es1 es2 flag mode content
    induction es1 generalizing st with
    | nil =>
      simp [extractTARGZ, tarStep]
    | cons f es1 ih =>
      simp only [List.cons_append, extractTARGZ]
      rcases hs : tarStep dir f st with ⟨er, st'⟩
      cases er with
      | some e => rfl
      | none => exact ih st'
  · intro st st1 dir es1 es2 e hpax hdir hreg h
    induction es1 generalizing st with
    | nil =>
      simp only [extractTARGZ, Prod.mk.injEq] at h
      rw [List.nil_append, extractTARGZ]
      have hstep : tarStep dir e st =
          (some (.unsupportedType e.typeflag e.name), st) := by
        simp [tarStep, hpax, hdir, hreg]
      rw [hstep, ← h.2]
    | cons f es1 ih =>
      rw [extractTARGZ] at h
      rw [show (f :: es1) ++ e :: es2 = f :: (es1 ++ e :: es2) from rfl,
        extractTARGZ]
      rcases hs : tarStep dir f st with ⟨er, st'⟩
      rw [hs] at h
      cases er with
      | some e2 => simp at h
      | none => exact ih st' h

/-- Claim C7, witness: a directory entry, then a `pax_global_header` entry
(skipped), then a symlink-typed entry (flag 50) failing with the
unsupported-type error while the directory created by the first entry is kept
on disk. -/
theorem claim_C7_witness :
    extractTARGZ dstDir
      [⟨⟨false, ["d"]⟩, tarTypeDir, 0, []⟩,
       ⟨⟨false, ["pax_global_header"]⟩, tarTypeReg, 0, [9]⟩,
       ⟨⟨false, ["s"]⟩, 50, 0, []⟩] stC6 =
      extractTARGZ dstDir
        [⟨⟨false, ["d"]⟩, tarTypeDir, 0, []⟩, ⟨⟨false, ["s"]⟩, 50, 0, []⟩] stC6 ∧
    extractTARGZ dstDir
      [⟨⟨false, ["d"]⟩, tarTypeDir, 0, []⟩, ⟨⟨false, ["s"]⟩, 50, 0, []⟩] stC6 =
      (some (.unsupportedType 50 ⟨false, ["s"]⟩),
       (extractTARGZ dstDir [⟨⟨false, ["d"]⟩, tarTypeDir, 0, []⟩] stC6).2) := by
  constructor
  · exact claim_C7.1 stC6 dstDir [⟨⟨false, ["d"]⟩, tarTypeDir, 0, []⟩]
      [⟨⟨false, ["s"]⟩, 50, 0, []⟩] tarTypeReg 0 [9]
  · exact claim_C7.2 stC6
      (extractTARGZ dstDir [⟨⟨false, ["d"]⟩, tarTypeDir, 0, []⟩] stC6).2 dstDir
      [⟨⟨false, ["d"]⟩, tarTypeDir, 0, []⟩] [] ⟨⟨false, ["s"]⟩, 50, 0, []⟩
      (by decide) (by decide) (by decide) (by decide)

end Krew
